import Mathlib

/-!
Shallow embedding of the browser worker and editor plugin of the zls playground
(`src/worker.ts`): the stdio bridge (`Stdio.fd_read` / `Stdio.fd_write`), the
JSON-RPC client (`LspClient`), the per-document plugin (`LspPlugin`), the
completion ranking and the diagnostics mapping, together with theorems checking
the specification against these definitions.

Bytes flowing through the framing decoder are modelled as `Char`s: the source
decodes its byte buffer as UTF-8 before every scan, and every byte sequence
considered here is ASCII, where the byte view and the character view agree
position for position.
-/

namespace Worker

/-! ### SharedChannel state and `Stdio.fd_read` -/

/-- State of the shared stdin channel used by `Stdio.fd_read`.
Modelled from the spec: the `Sharer` class itself (`src/sharer.ts`) is not among
the sources; §3 of the spec gives its data model as a payload byte buffer plus a
count of valid bytes, which is exactly what `fd_read` uses (`sharer.dataBuffer`
and `sharer.index`). -/
structure Sharer where
  index : Nat
  dataBuffer : List Nat
deriving DecidableEq

/-- `Stdio.fd_read` (src/worker.ts lines 63-93) for a single iovec of length
`maxLen`, on the non-blocking path (`sharer.index ≠ 0`, so the `Atomics.wait`
branch is skipped): take `read = min(iovec.buf_len, sharer.index)` bytes from
the front of the data buffer, copy the rest of the buffer to its front
(`new Uint8Array(dataBuffer).set(new Uint8Array(dataBuffer, read), 0)`), and
decrement the count (`sharer.index -= read`). -/
def fd_read (s : Sharer) (maxLen : Nat) : List Nat × Sharer :=
  let read := min maxLen s.index
  let sl := s.dataBuffer.take read
  let shifted := s.dataBuffer.drop read ++ s.dataBuffer.drop (s.dataBuffer.length - read)
  (sl, { index := s.index - read, dataBuffer := shifted })

/-- C9: a blocking stdin read of request size `maxLen`, performed while the
channel holds `s.index` valid bytes, returns exactly `min maxLen s.index` bytes
taken from the front of the payload buffer, left-shifts the remaining valid
bytes to the front of the buffer, and decrements the length counter by the
number of bytes taken. -/
theorem c9_fd_read_drains_front (s : Sharer) (maxLen : Nat)
    (hpos : 0 < s.index) (hlen : s.index ≤ s.dataBuffer.length) :
    (fd_read s maxLen).1 = s.dataBuffer.take (min maxLen s.index) ∧
    (fd_read s maxLen).1.length = min maxLen s.index ∧
    (fd_read s maxLen).2.index = s.index - min maxLen s.index ∧
    (fd_read s maxLen).2.dataBuffer.take ((fd_read s maxLen).2.index)
      = (s.dataBuffer.drop (min maxLen s.index)).take (s.index - min maxLen s.index) := by
  refine ⟨rfl, ?_, rfl, ?_⟩
  · simp [fd_read]
    omega
  · simp only [fd_read]
    rw [List.take_append_of_le_length]
    simp only [List.length_drop]
    omega

/-- Witness for C9 at a concrete channel state: 3 valid bytes, request size 2. -/
theorem c9_fd_read_drains_front_witness :
    (fd_read ⟨3, [10, 20, 30, 40, 50]⟩ 2).1 = [10, 20] ∧
    (fd_read ⟨3, [10, 20, 30, 40, 50]⟩ 2).2.index = 1 := by
  have h := c9_fd_read_drains_front ⟨3, [10, 20, 30, 40, 50]⟩ 2 (by decide) (by decide)
  exact ⟨h.1.trans (by decide), h.2.2.1.trans (by decide)⟩

/-! ### `LspPlugin` document session: version counter -/

/-- Document-lifecycle notifications sent by `LspPlugin`, with the version number
and full document text they carry. -/
inductive DocNotification where
  | didOpen (version : Nat) (text : String)
  | didChange (version : Nat) (text : String)
deriving DecidableEq

/-- `LspPlugin.initialize` (lines 454-466): sends `textDocument/didOpen` carrying
the current `documentVersion`, without touching the counter. -/
def pluginInitialize (version : Nat) (text : String) : Nat × DocNotification :=
  (version, .didOpen version text)

/-- `LspPlugin.sendChange` (lines 468-481): a no-op unless the client is open;
otherwise sends `textDocument/didChange` carrying `this.documentVersion++` —
the post-increment expression sends the current value of the counter and then
increments the field. -/
def sendChange (isOpen : Bool) (version : Nat) (text : String) :
    Nat × Option DocNotification :=
  if isOpen then (version + 1, some (.didChange version text)) else (version, none)

/-- Change notifications produced by a sequence of editor updates, threading the
version counter; each event records the client-open flag at that moment and the
full replacement text. -/
def runChanges (version : Nat) : List (Bool × String) → List DocNotification
  | [] => []
  | (isOpen, text) :: rest =>
    match sendChange isOpen version text with
    | (v, some n) => n :: runChanges v rest
    | (v, none) => runChanges v rest

/-- A whole document session: the plugin is constructed with `documentVersion = 0`,
`initialize` sends `didOpen`, then each editor update goes through `sendChange`. -/
def runSession (text0 : String) (events : List (Bool × String)) : List DocNotification :=
  (pluginInitialize 0 text0).2 :: runChanges (pluginInitialize 0 text0).1 events

/-- Versions carried by the `didChange` notifications of a trace, in order. -/
def didChangeVersions : List DocNotification → List Nat
  | [] => []
  | .didChange v _ :: rest => v :: didChangeVersions rest
  | .didOpen _ _ :: rest => didChangeVersions rest

theorem didChangeVersions_runChanges (v : Nat) (events : List (Bool × String)) :
    didChangeVersions (runChanges v events) = List.range' v (events.filter (·.1)).length := by
  induction events generalizing v with
  | nil => simp [runChanges, didChangeVersions]
  | cons e rest ih =>
    obtain ⟨isOpen, text⟩ := e
    cases isOpen with
    | false => simpa [runChanges, sendChange, didChangeVersions] using ih v
    | true =>
      simp [runChanges, sendChange, didChangeVersions, ih, List.range'_succ]

/-- C3: a document session opens with a `didOpen` notification carrying version
0, and the versions carried by the successive `didChange` notifications are
0, 1, 2, …: each change notification carries the post-increment value of the
counter, so successive change notifications increase by exactly 1 per change
sent, however many events the editor produces. -/
theorem c3_version_counter (text0 : String) (events : List (Bool × String)) :
    (runSession text0 events).head? = some (.didOpen 0 text0) ∧
    didChangeVersions (runSession text0 events)
      = List.range (events.filter (·.1)).length := by
  refine ⟨rfl, ?_⟩
  show didChangeVersions (DocNotification.didOpen 0 text0 :: runChanges 0 events) = _
  rw [didChangeVersions, didChangeVersions_runChanges, List.range_eq_range']

/-! ### Frame decoder: `Stdio.fd_write`, stdout branch (lines 32-48) -/

/-- The ASCII header mark `"Content-Length: "` checked by the decoder. -/
def contentLengthMark : List Char := "Content-Length: ".toList

/-- The header terminator `"\r\n\r\n"`. -/
def crlfCrlf : List Char := ['\r', '\n', '\r', '\n']

/-- Whitespace skipped by JS `parseInt` (ECMA StrWhiteSpace, ASCII part). -/
def jsIsSpace (c : Char) : Bool :=
  c = ' ' || c = '\t' || c = '\n' || c = '\r' || c.val = 11 || c.val = 12

/-- Value of a nonempty run of leading decimal digits. -/
def leadingDigits (s : List Char) : Option Nat :=
  let ds := s.takeWhile Char.isDigit
  if ds.isEmpty then none
  else some (ds.foldl (fun acc c => acc * 10 + (c.toNat - '0'.toNat)) 0)

/-- JS `parseInt(s)` with the default radix: skip leading whitespace, take an
optional sign, then the longest run of decimal digits; `none` models `NaN`.
(The `0x` radix autodetection of `parseInt` is not modelled: no input considered
here places an `x` after the leading digits.) -/
def jsParseInt (s : List Char) : Option Int :=
  match s.dropWhile jsIsSpace with
  | '-' :: rest => (leadingDigits rest).map (fun n => -(n : Int))
  | '+' :: rest => (leadingDigits rest).map (fun n => (n : Int))
  | rest => (leadingDigits rest).map (fun n => (n : Int))

/-- JS `String.prototype.indexOf` for the position of the first occurrence of
`pat`, `none` modelling `-1`. -/
def indexOfSub (pat : List Char) : List Char → Option Nat
  | [] => if pat.isEmpty then some 0 else none
  | c :: rest =>
    if pat.isPrefixOf (c :: rest) then some 0
    else (indexOfSub pat rest).map (· + 1)

/-- JS `slice` index resolution: a negative index counts from the end of the
list, a positive one is clamped to the length. -/
def jsSliceIdx (len : Nat) (i : Int) : Nat :=
  if i < 0 then ((len : Int) + i).toNat else min i.toNat len

/-- JS `String.prototype.slice(start, fin)` on a character list. -/
def jsSlice (l : List Char) (start fin : Int) : List Char :=
  (l.take (jsSliceIdx l.length fin)).drop (jsSliceIdx l.length start)

/-- Result of running the decoding loop of `Stdio.fd_write` over the stdout
buffer: the messages posted (in order) and the bytes left in the buffer.
`parseFail` records that `JSON.parse` threw a `SyntaxError` on the sliced body,
aborting `fd_write` with an exception; `fuelOut` is an artefact of the fuel
parameter and is never reached in the runs evaluated below. -/
inductive DecodeResult (α : Type) where
  | ok (emitted : List α) (buffer : List Char)
  | parseFail (emitted : List α) (buffer : List Char)
  | fuelOut
deriving DecidableEq

/-- Prepend an already-posted message to the result of the rest of the loop. -/
def DecodeResult.consMsg (v : α) : DecodeResult α → DecodeResult α
  | .ok em b => .ok (v :: em) b
  | .parseFail em b => .parseFail (v :: em) b
  | .fuelOut => .fuelOut

/-- The `while (true)` loop of the stdout branch of `Stdio.fd_write`
(lines 35-48), parameterised over the platform's `JSON.parse` (`parse`, with
`none` modelling a thrown `SyntaxError`):

* `data` is the buffer decoded as a string; stop when it does not start with
  `"Content-Length: "`;
* `len = parseInt(data.slice(16))`, which is `NaN` when no digits follow;
* `bodyStart = data.indexOf("\r\n\r\n") + 4`; the source's `if (bodyStart === -1)
  break;` is kept although it can never fire (`indexOf` returns `-1` or a
  nonnegative index, so `bodyStart` is `3` or at least `4`);
* stop when the buffer holds fewer than `bodyStart + len` bytes — with `len`
  `NaN` this comparison is false, the `splice` removes `ToInteger(NaN) = 0`
  bytes and the body slice `data.slice(bodyStart, NaN)` is empty;
* otherwise `splice` the header and body off the front, `JSON.parse` the body
  slice and post the message, then loop. -/
def decodeLoop (parse : String → Option α) : Nat → List Char → DecodeResult α
  | 0, _ => .fuelOut
  | fuel + 1, buffer =>
    if contentLengthMark.isPrefixOf buffer then
      let lenOpt := jsParseInt (buffer.drop 16)
      let bodyStart : Int :=
        (match indexOfSub crlfCrlf buffer with | some i => (i : Int) | none => -1) + 4
      if bodyStart = -1 then .ok [] buffer
      else
        match lenOpt with
        | none =>
          match parse (String.mk (jsSlice buffer bodyStart 0)) with
          | none => .parseFail [] buffer
          | some v => (decodeLoop parse fuel buffer).consMsg v
        | some len =>
          if (buffer.length : Int) < bodyStart + len then .ok [] buffer
          else
            let newBuf := buffer.drop (bodyStart + len).toNat
            let body := jsSlice buffer bodyStart (bodyStart + len)
            match parse (String.mk body) with
            | none => .parseFail [] newBuf
            | some v => (decodeLoop parse fuel newBuf).consMsg v
    else .ok [] buffer

/-- One delivery into the decoder: `fd_write` appends the written slice to
`this.buffer` and runs the decoding loop. The fuel `length + 1` covers every
iteration the loop can make on the inputs evaluated below. -/
def deliver (parse : String → Option α) (buffer chunk : List Char) : DecodeResult α :=
  decodeLoop parse ((buffer ++ chunk).length + 1) (buffer ++ chunk)

/-- C1 (code bug): deliver the frame `"Content-Length: 13\r\n\r\n" + 13-byte
JSON body` split mid-header after the digits: first write
`"Content-Length: 13"`, then `"\r\n\r\n"` followed by the 13-byte body
`"\"abcdefghijk\""`. The decoder should emit nothing on the first
write and wait; instead — because `bodyStart` is `3` when `"\r\n\r\n"` has not
arrived (`indexOf` returned `-1` and `4` was added before the dead `=== -1`
check) — it consumes 16 bytes, slices the non-JSON text `"tent-Length: "` as a
body, and `JSON.parse` throws, leaving `"13"` in the buffer. A subsequent write
of the remainder then finds a buffer that no longer starts with
`"Content-Length: "` and never emits the message. -/
theorem c1_decoder_mid_header_split_bug (α : Type) (parse : String → Option α)
    (h : parse "tent-Length: " = none) :
    deliver parse [] ("Content-Length: 13".toList) = .parseFail [] ("13".toList) ∧
    deliver parse ("13".toList) ("\r\n\r\n\"abcdefghijk\"".toList)
      = .ok [] (("13" ++ "\r\n\r\n\"abcdefghijk\"").toList) := by
  constructor
  · have e : deliver parse [] ("Content-Length: 13".toList)
        = (match parse "tent-Length: " with
           | none => DecodeResult.parseFail [] ("13".toList)
           | some v => (decodeLoop parse 18 ("13".toList)).consMsg v) := rfl
    rw [e, h]
  · rfl

/-- Witness for C1: `JSON.parse` rejects `"tent-Length: "` (it is not JSON);
any parser refusing it reproduces the failure. -/
theorem c1_decoder_mid_header_split_bug_witness :
    deliver (fun _ => (none : Option Unit)) [] ("Content-Length: 13".toList)
      = .parseFail [] ("13".toList) :=
  (c1_decoder_mid_header_split_bug Unit (fun _ => none) rfl).1

/-- C5 (code bug): the well-formed frame `"Content-Length: 2\r\n\r\n{}"`,
partitioned into the deliveries `"Content-Length: 2"` and `"\r\n\r\n{}"`, should
yield exactly one decoded message; instead the first delivery — again because
`bodyStart` is `3` without a header terminator and `parseInt` already sees the
digit `2` — consumes 5 bytes, slices `"te"` as a body and `JSON.parse` throws;
the second delivery then sees a buffer starting with `"nt-Length: 2"` and emits
nothing, so no message is ever decoded under this partition. -/
theorem c5_decoder_chunking_bug (α : Type) (parse : String → Option α)
    (h : parse "te" = none) :
    deliver parse [] ("Content-Length: 2".toList)
      = .parseFail [] ("nt-Length: 2".toList) ∧
    deliver parse ("nt-Length: 2".toList) ("\r\n\r\n{}".toList)
      = .ok [] (("nt-Length: 2" ++ "\r\n\r\n{}").toList) := by
  constructor
  · have e : deliver parse [] ("Content-Length: 2".toList)
        = (match parse "te" with
           | none => DecodeResult.parseFail [] ("nt-Length: 2".toList)
           | some v => (decodeLoop parse 17 ("nt-Length: 2".toList)).consMsg v) := rfl
    rw [e, h]
  · rfl

/-- Witness for C5: any parser rejecting the non-JSON text `"te"` reproduces the
failure. -/
theorem c5_decoder_chunking_bug_witness :
    deliver (fun _ => (none : Option Unit)) [] ("Content-Length: 2".toList)
      = .parseFail [] ("nt-Length: 2".toList) :=
  (c5_decoder_chunking_bug Unit (fun _ => none) rfl).1

/-! ### `LspClient`: request correlation (lines 311-355) -/

/-- Settlement state of the promise held in an `OutboundRequest` entry. -/
inductive FutureState (α : Type) where
  | pending
  | resolved (value : Option α)
  | rejected (error : α)
deriving DecidableEq

/-- A JSON-RPC message, with payloads drawn from `α` (the JSON values are never
inspected by the client). -/
structure JsonRpcMessage (α : Type) where
  id : Option Nat := none
  method : Option String := none
  params : Option α := none
  result : Option α := none
  error : Option α := none
deriving DecidableEq

/-- The client state the correlation logic uses: the `id` counter and the
`outboundRequests` map, represented as an association list in insertion order
(a JS `Map` iterates in insertion order and holds each key once). -/
structure LspClient (α : Type) where
  id : Nat
  outboundRequests : List (Nat × FutureState α)
deriving DecidableEq

/-- `LspClient.request` (lines 311-332) up to its suspension at `await promise`:
allocate `id = this.id++`, register a pending entry, send the frame. The
continuation after the `await` is `resumeRequest` below. -/
def request (c : LspClient α) : LspClient α × Nat :=
  ({ id := c.id + 1, outboundRequests := c.outboundRequests ++ [(c.id, .pending)] }, c.id)

/-- Settling a pending future from a response: `req.reject(message.error)` when
`message.error` is truthy — a JSON-RPC error member is an object, hence truthy
exactly when the member is present — else `req.resolve(message.result)`.
Resolving or rejecting an already-settled promise is a no-op. -/
def settle (st : FutureState α) (m : JsonRpcMessage α) : FutureState α :=
  match st with
  | .pending =>
    match m.error with
    | some e => .rejected e
    | none => .resolved m.result
  | s => s

/-- `LspClient.handleMessage` (lines 342-355) restricted to its effect on the
client state: a message with an `id` and no `method` is a response; the matching
pending entry's future is settled (on no match, `console.error("Got non-answer")`
and no state change). The plugin fan-out on lines 353-354 does not touch
`outboundRequests` (`LspPlugin.handleMessage` only dispatches diagnostics to the
editor view). Note that the entry is *not* deleted here. -/
def handleMessage (c : LspClient α) (m : JsonRpcMessage α) : LspClient α :=
  match m.id, m.method with
  | some i, none =>
    match c.outboundRequests.lookup i with
    | some _ =>
      { c with outboundRequests :=
          c.outboundRequests.map (fun p => if p.1 = i then (p.1, settle p.2 m) else p) }
    | none => c
  | _, _ => c

/-- The continuation of `LspClient.request` after `await promise` (lines
329-331): `this.outboundRequests.delete(id)` runs only once the promise has
resolved; a rejection makes the `await` throw first, so the delete is skipped
and the entry stays in the map; a still-pending promise keeps the continuation
suspended. -/
def resumeRequest (c : LspClient α) (i : Nat) : LspClient α :=
  match c.outboundRequests.lookup i with
  | some (.resolved _) =>
    { c with outboundRequests := c.outboundRequests.filter (fun p => p.1 ≠ i) }
  | _ => c

/-- Outcome a response carries for one request: a result or an error payload. -/
inductive RpcOutcome (α : Type) where
  | success (v : α)
  | failure (e : α)
deriving DecidableEq

/-- The response frame answering request `i` with the given outcome. -/
def responseFor (i : Nat) : RpcOutcome α → JsonRpcMessage α
  | .success v => { id := some i, result := some v }
  | .failure e => { id := some i, error := some e }

/-- The future state a request's promise reaches from the given outcome. -/
def settledFor : RpcOutcome α → FutureState α
  | .success v => .resolved (some v)
  | .failure e => .rejected e

/-- Deliver a sequence of messages through `handleMessage`, in order. -/
def deliverAll (c : LspClient α) (ms : List (JsonRpcMessage α)) : LspClient α :=
  ms.foldl handleMessage c

theorem responseFor_id (i : Nat) (o : RpcOutcome α) : (responseFor i o).id = some i := by
  cases o <;> rfl

theorem lookup_settleMap (l : List (Nat × FutureState α)) (i j : Nat)
    (m : JsonRpcMessage α) :
    (l.map (fun p => if p.1 = j then (p.1, settle p.2 m) else p)).lookup i
      = if i = j then (l.lookup i).map (fun st => settle st m) else l.lookup i := by
  induction l with
  | nil => simp
  | cons p rest ih =>
    obtain ⟨k, st⟩ := p
    simp only [List.map_cons]
    by_cases hik : i = k
    · subst hik
      by_cases hij : i = j
      · subst hij
        simp [List.lookup_cons]
      · simp [List.lookup_cons, hij]
    · by_cases hkj : k = j
      · subst hkj
        simp [List.lookup_cons, hik, ih, beq_false_of_ne hik]
      · simp [List.lookup_cons, hik, hkj, ih, beq_false_of_ne hik]


theorem lookup_filter_self {β : Type} (l : List (Nat × β)) (i : Nat) :
    (l.filter fun p => p.1 ≠ i).lookup i = none := by
  induction l with
  | nil => rfl
  | cons p rest ih =>
    obtain ⟨k, b⟩ := p
    rw [List.filter_cons]
    by_cases h : k = i
    · rw [if_neg (by simp [h])]
      exact ih
    · rw [if_pos (by simpa using h)]
      have hik : i ≠ k := fun hh => h hh.symm
      simpa [List.lookup_cons, beq_false_of_ne hik] using ih

theorem handleMessage_lookup_ne (c : LspClient α) (m : JsonRpcMessage α) (i : Nat)
    (h : m.id ≠ some i) :
    (handleMessage c m).outboundRequests.lookup i = c.outboundRequests.lookup i := by
  cases hid : m.id with
  | none => simp [handleMessage, hid]
  | some j =>
    cases hmm : m.method with
    | some s => simp [handleMessage, hid, hmm]
    | none =>
      have hij : i ≠ j := fun hh => h (by rw [hid, hh])
      simp only [handleMessage, hid, hmm]
      cases hl : c.outboundRequests.lookup j with
      | none => rfl
      | some st => simp [lookup_settleMap, hij]

theorem handleMessage_settles (c : LspClient α) (i : Nat) (o : RpcOutcome α)
    (h : c.outboundRequests.lookup i = some .pending) :
    (handleMessage c (responseFor i o)).outboundRequests.lookup i
      = some (settledFor o) := by
  have hid : (responseFor i o).id = some i := responseFor_id i o
  have hmm : (responseFor i o).method = none := by cases o <;> rfl
  simp only [handleMessage, hid, hmm, h]
  rw [lookup_settleMap]
  simp only [if_pos rfl, h, Option.map_some']
  cases o <;> rfl

theorem deliverAll_lookup_ne (ms : List (JsonRpcMessage α)) (c : LspClient α) (i : Nat)
    (h : ∀ m ∈ ms, m.id ≠ some i) :
    (deliverAll c ms).outboundRequests.lookup i = c.outboundRequests.lookup i := by
  induction ms generalizing c with
  | nil => rfl
  | cons m rest ih =>
    have : deliverAll c (m :: rest) = deliverAll (handleMessage c m) rest := rfl
    rw [this, ih _ (fun x hx => h x (List.mem_cons_of_mem _ hx)),
      handleMessage_lookup_ne _ _ _ (h m (List.mem_cons_self _ _))]

theorem lookup_pendingMap (ids : List Nat) (i : Nat) (h : i ∈ ids) :
    (ids.map (fun k => (k, (FutureState.pending : FutureState α)))).lookup i
      = some .pending := by
  induction ids with
  | nil => cases h
  | cons k rest ih =>
    rcases List.mem_cons.mp h with h1 | h2
    · subst h1; simp [List.lookup_cons]
    · by_cases hik : i = k
      · subst hik; simp [List.lookup_cons]
      · simp [List.lookup_cons, beq_false_of_ne hik, ih h2]

theorem lookup_pendingMap_none (ids : List Nat) (j : Nat) (h : j ∉ ids) :
    (ids.map (fun k => (k, (FutureState.pending : FutureState α)))).lookup j = none := by
  induction ids with
  | nil => rfl
  | cons k rest ih =>
    have hjk : j ≠ k := fun hh => h (hh ▸ List.mem_cons_self k rest)
    simp [List.lookup_cons, beq_false_of_ne hjk,
      ih (fun hh => h (List.mem_cons_of_mem _ hh))]

/-- C2: with `N` concurrently issued requests holding distinct ids (the pending
map holds one `pending` entry per id), delivering their `N` responses through
`handleMessage` in any permuted order settles each request's future with that
request's own outcome — `resolved` with the response's result, or `rejected`
with its error payload — and delivering a response whose id was never issued
leaves the client, and hence every pending future, exactly unchanged. -/
theorem c2_response_correlation {α : Type} (nid : Nat) (ids : List Nat)
    (out : Nat → RpcOutcome α) (resps : List (JsonRpcMessage α)) (j : Nat)
    (o : RpcOutcome α) (hnd : ids.Nodup)
    (hperm : resps.Perm (ids.map fun i => responseFor i (out i)))
    (hj : j ∉ ids) :
    (∀ i ∈ ids,
      (deliverAll ⟨nid, ids.map fun k => (k, .pending)⟩ resps).outboundRequests.lookup i
        = some (settledFor (out i))) ∧
    handleMessage (⟨nid, ids.map fun k => (k, .pending)⟩ : LspClient α) (responseFor j o)
      = ⟨nid, ids.map fun k => (k, .pending)⟩ := by
  constructor
  · intro i hi
    -- split the permuted response list around request i's own response
    have hmem : responseFor i (out i) ∈ resps :=
      hperm.mem_iff.mpr (List.mem_map_of_mem (fun k => responseFor k (out k)) hi)
    obtain ⟨s, t, hst⟩ := List.append_of_mem hmem
    -- ids of the delivered responses are pairwise distinct
    have hidsnd : (resps.map (fun m => m.id)).Nodup := by
      have h1 : (resps.map (fun m => m.id)).Perm
          ((ids.map fun i => responseFor i (out i)).map (fun m => m.id)) :=
        hperm.map _
      have h2 : (ids.map fun i => responseFor i (out i)).map (fun m => m.id)
          = ids.map some := by
        rw [List.map_map]; exact List.map_congr_left fun k _ => responseFor_id k (out k)
      rw [h2] at h1
      exact h1.nodup_iff.mpr (hnd.map (Option.some_injective Nat))
    have hnotouch : ∀ m ∈ s ++ t, m.id ≠ some i := by
      intro m hm hmid
      rw [hst] at hidsnd
      rw [List.map_append, List.map_cons] at hidsnd
      rcases List.mem_append.mp hm with hs | ht
      · rcases List.nodup_append.mp hidsnd with ⟨-, -, hdisj⟩
        exact hdisj (List.mem_map_of_mem _ hs)
          (by rw [hmid, ← responseFor_id i (out i)]; exact List.mem_cons_self _ _)
      · rcases List.nodup_append.mp hidsnd with ⟨-, hnd2, -⟩
        rcases List.nodup_cons.mp hnd2 with ⟨hni, -⟩
        apply hni
        rw [responseFor_id, ← hmid]
        exact List.mem_map_of_mem _ ht
    have hsplit : deliverAll (⟨nid, ids.map fun k => (k, .pending)⟩ : LspClient α) resps
        = deliverAll
            (handleMessage (deliverAll ⟨nid, ids.map fun k => (k, .pending)⟩ s)
              (responseFor i (out i))) t := by
      rw [hst]; simp [deliverAll, List.foldl_append]
    rw [hsplit,
      deliverAll_lookup_ne t _ i (fun m hm => hnotouch m (List.mem_append_right s hm)),
      handleMessage_settles]
    rw [deliverAll_lookup_ne s _ i (fun m hm => hnotouch m (List.mem_append_left t hm))]
    exact lookup_pendingMap ids i hi
  · have hid : (responseFor j o).id = some j := responseFor_id j o
    have hmm : (responseFor j o).method = none := by cases o <;> rfl
    simp [handleMessage, hid, hmm, lookup_pendingMap_none ids j hj]

/-- Witness for C2: two requests with ids 0 and 1, responses delivered in
reverse order, one success and one error, plus a response with the never-issued
id 5. -/
theorem c2_response_correlation_witness :
    (deliverAll (⟨2, [(0, .pending), (1, .pending)]⟩ : LspClient String)
        [responseFor 1 (.failure "boom"), responseFor 0 (.success "ok")]).outboundRequests.lookup 0
      = some (.resolved (some "ok")) ∧
    (deliverAll (⟨2, [(0, .pending), (1, .pending)]⟩ : LspClient String)
        [responseFor 1 (.failure "boom"), responseFor 0 (.success "ok")]).outboundRequests.lookup 1
      = some (.rejected "boom") ∧
    handleMessage (⟨2, [(0, .pending), (1, .pending)]⟩ : LspClient String)
        (responseFor 5 (.success "zzz"))
      = ⟨2, [(0, .pending), (1, .pending)]⟩ := by
  have h := c2_response_correlation (α := String) 2 [0, 1]
    (fun i => if i = 0 then .success "ok" else .failure "boom")
    [responseFor 1 (.failure "boom"), responseFor 0 (.success "ok")] 5 (.success "zzz")
    (by decide) (List.Perm.swap _ _ _) (by decide)
  exact ⟨h.1 0 (by decide), h.1 1 (by decide), h.2⟩

/-- C4 counterexample: a client with the single pending request 0 receives the
matching error response; after `handleMessage` and the resumed `request`
continuation the entry is still in `outboundRequests` (holding the rejected
future), because the `await` threw before `this.outboundRequests.delete(id)`.
The claim says the entry is destroyed on arrival of its response, success or
error. -/
theorem c4_error_response_entry_leak :
    (resumeRequest
        (handleMessage (request (⟨0, []⟩ : LspClient String)).1
          { id := some 0, error := some "boom" }) 0).outboundRequests.lookup 0
      ≠ none := by
  decide

/-- C4 amended: the pending entry is removed only when the matching response
carries a result: a success response's entry is gone once the request
continuation has run, while an error response's future is rejected but its
entry remains in the pending map. -/
theorem c4_entry_removed_only_on_success {α : Type} (c : LspClient α) (i : Nat)
    (v e : α) (hp : c.outboundRequests.lookup i = some .pending) :
    (resumeRequest (handleMessage c { id := some i, result := some v }) i).outboundRequests.lookup i
      = none ∧
    (resumeRequest (handleMessage c { id := some i, error := some e }) i).outboundRequests.lookup i
      = some (.rejected e) := by
  constructor
  · have h1 : (handleMessage c { id := some i, result := some v }).outboundRequests.lookup i
        = some (.resolved (some v)) := by
      simp only [handleMessage, hp]
      rw [lookup_settleMap]
      simp [hp, settle]
    simp only [resumeRequest, h1]
    exact lookup_filter_self _ i
  · have h1 : (handleMessage c { id := some i, error := some e }).outboundRequests.lookup i
        = some (.rejected e) := by
      simp only [handleMessage, hp]
      rw [lookup_settleMap]
      simp [hp, settle]
    simp only [resumeRequest, h1]

/-- Witness for C4's amended statement at a concrete client. -/
theorem c4_entry_removed_only_on_success_witness :
    (resumeRequest
        (handleMessage (⟨1, [(0, .pending)]⟩ : LspClient String)
          { id := some 0, result := some "ok" }) 0).outboundRequests.lookup 0 = none ∧
    (resumeRequest
        (handleMessage (⟨1, [(0, .pending)]⟩ : LspClient String)
          { id := some 0, error := some "boom" }) 0).outboundRequests.lookup 0
      = some (.rejected "boom") :=
  c4_entry_removed_only_on_success (⟨1, [(0, .pending)]⟩ : LspClient String) 0 "ok" "boom" rfl

/-! ### Position conversion: `posToOffset` / `offsetToPos` (lines 676-689)

A CodeMirror `Text` document is modelled as its list of lines, each a character
list (newline characters excluded, lines joined by a single `"\n"`); a
CodeMirror document always has at least one line. -/

/-- CodeMirror `doc.length`: total character count, newlines included. -/
def docLength : List (List Char) → Nat
  | [] => 0
  | [l] => l.length
  | l :: ls => l.length + 1 + docLength ls

/-- CodeMirror `doc.line(k + 1).from`: offset at which line `k` starts. -/
def lineStart : List (List Char) → Nat → Nat
  | _, 0 => 0
  | [], _ + 1 => 0
  | l :: ls, k + 1 => l.length + 1 + lineStart ls k

/-- CodeMirror `doc.lineAt(offset).number - 1`: index of the line containing
the offset; an offset sitting on a line-joining newline belongs to the line
before it. External library behaviour, modelled from its documentation. -/
def lineIdxAt : List (List Char) → Nat → Nat
  | [], _ => 0
  | [_], _ => 0
  | l :: ls, offset =>
    if offset ≤ l.length then 0 else lineIdxAt ls (offset - (l.length + 1)) + 1

/-- Remote zero-based line / character-within-line position. -/
structure Pos where
  line : Nat
  character : Nat
deriving DecidableEq

/-- `offsetToPos` (lines 683-689). -/
def offsetToPos (doc : List (List Char)) (offset : Nat) : Pos :=
  { line := lineIdxAt doc offset,
    character := offset - lineStart doc (lineIdxAt doc offset) }

/-- `posToOffset` (lines 676-681): `undefined` (`none`) when the line index is
out of range or the offset `line.from + pos.character` exceeds `doc.length`. -/
def posToOffset (doc : List (List Char)) (pos : Pos) : Option Nat :=
  if pos.line ≥ doc.length then none
  else if lineStart doc pos.line + pos.character > docLength doc then none
  else some (lineStart doc pos.line + pos.character)

theorem lineIdxAt_lt : ∀ (doc : List (List Char)), doc ≠ [] → ∀ offset,
    lineIdxAt doc offset < doc.length
  | [], h, _ => absurd rfl h
  | [_], _, _ => by simp [lineIdxAt]
  | l :: l' :: ls, _, offset => by
    simp only [lineIdxAt]
    split
    · simp
    · have := lineIdxAt_lt (l' :: ls) (by simp) (offset - (l.length + 1))
      simp only [List.length_cons] at this ⊢
      omega

theorem lineStart_lineIdxAt_le : ∀ (doc : List (List Char)), ∀ offset,
    offset ≤ docLength doc → lineStart doc (lineIdxAt doc offset) ≤ offset
  | [], _, _ => by simp [lineIdxAt, lineStart]
  | [_], _, _ => by simp [lineIdxAt, lineStart]
  | l :: l' :: ls, offset, hoff => by
    simp only [lineIdxAt]
    split
    · simp [lineStart]
    · rename_i hgt
      simp only [docLength] at hoff
      have ih := lineStart_lineIdxAt_le (l' :: ls) (offset - (l.length + 1))
        (by omega)
      simp only [lineStart]
      omega

/-- C10: for every document and every offset within it (0 up to the document
length inclusive), converting the offset to a line/character position with
`offsetToPos` and back with `posToOffset` succeeds and returns the original
offset. -/
theorem c10_offset_pos_roundtrip (doc : List (List Char)) (offset : Nat)
    (hdoc : doc ≠ []) (hoff : offset ≤ docLength doc) :
    posToOffset doc (offsetToPos doc offset) = some offset := by
  have hk : lineIdxAt doc offset < doc.length := lineIdxAt_lt doc hdoc offset
  have hs : lineStart doc (lineIdxAt doc offset) ≤ offset :=
    lineStart_lineIdxAt_le doc offset hoff
  simp only [posToOffset, offsetToPos]
  rw [if_neg (by omega), if_neg (by omega)]
  congr 1
  omega

/-- Witness for C10: a two-line document, the offset pointing into line 1. -/
theorem c10_offset_pos_roundtrip_witness :
    posToOffset ["ab".toList, "cde".toList] (offsetToPos ["ab".toList, "cde".toList] 4)
      = some 4 :=
  c10_offset_pos_roundtrip ["ab".toList, "cde".toList] 4 (by decide) (by decide)

/-! ### Diagnostics mapping: `LspPlugin.handleDiagnostics` (lines 639-666) -/

/-- The four LSP diagnostic severities. -/
inductive DiagnosticSeverity where
  | error
  | warning
  | information
  | hint
deriving DecidableEq

/-- The editor's three-level severity scale. -/
inductive CmSeverity where
  | error
  | warning
  | info
deriving DecidableEq

/-- The severity lookup object on lines 646-651. -/
def severityMap : DiagnosticSeverity → CmSeverity
  | .error => .error
  | .warning => .warning
  | .information => .info
  | .hint => .info

/-- An LSP range: start and end positions. -/
structure LspRange where
  start : Pos
  «end» : Pos
deriving DecidableEq

/-- An incoming LSP diagnostic (severity is optional in the protocol; the code
applies the non-null assertion `severity!` before the lookup). -/
structure LspDiagnostic where
  range : LspRange
  message : String
  severity : Option DiagnosticSeverity
deriving DecidableEq

/-- Entry produced by the `.map` on lines 643-653: `from` / `to` may be
`undefined` (`posToOffset` returned nothing), and `severity` is `undefined`
when the incoming diagnostic carried none. -/
structure CmDiagnostic where
  «from» : Option Nat
  «to» : Option Nat
  severity : Option CmSeverity
  message : String
deriving DecidableEq

/-- Lines 643-653: map one LSP diagnostic to an editor diagnostic. -/
def mapDiagnostic (doc : List (List Char)) (d : LspDiagnostic) : CmDiagnostic :=
  { «from» := posToOffset doc d.range.start,
    «to» := posToOffset doc d.range.«end»,
    severity := d.severity.map severityMap,
    message := d.message }

/-- JS `a.from < b.from` on possibly-undefined offsets: every comparison with
`undefined` is false. -/
def jsLtFrom (a b : CmDiagnostic) : Bool :=
  match a.«from», b.«from» with
  | some x, some y => x < y
  | _, _ => false

/-- The comparator on lines 655-663 returns `-1` when `a.from < b.from`, `1`
when `a.from > b.from`, `0` otherwise; a JS stable sort keeps `a` before `b`
exactly when the comparator is not positive, i.e. `¬ (b.from < a.from)`. -/
def diagLE (a b : CmDiagnostic) : Bool := ! jsLtFrom b a

/-- Comparison of the (defined) start offsets, with a default for `undefined`;
agrees with `diagLE` on every filtered entry. -/
def fromKeyLE (a b : CmDiagnostic) : Bool := a.«from».getD 0 ≤ b.«from».getD 0

/-- Lines 642-663: map to editor diagnostics, filter out the entries whose
`from` or `to` is undefined, stable-sort by ascending `from`
(`Array.prototype.sort` is specified to be stable). -/
def displayedDiagnostics (doc : List (List Char)) (diags : List LspDiagnostic) :
    List CmDiagnostic :=
  ((diags.map (mapDiagnostic doc)).filter
      (fun x => x.«from».isSome && x.«to».isSome)).mergeSort diagLE

/-- `LspPlugin.handleDiagnostics` (lines 639-666): a batch not addressed to the
tracked document is dropped (`params.uri !== this.documentUri`); otherwise the
displayed set is replaced by the mapped, filtered and sorted list. -/
def handleDiagnostics (doc : List (List Char)) (documentUri uri : String)
    (diags : List LspDiagnostic) : Option (List CmDiagnostic) :=
  if uri ≠ documentUri then none
  else some (displayedDiagnostics doc diags)

theorem diagLE_agrees (a b : CmDiagnostic) (ha : a.«from».isSome)
    (hb : b.«from».isSome) : diagLE a b = fromKeyLE a b := by
  obtain ⟨x, hx⟩ := Option.isSome_iff_exists.mp ha
  obtain ⟨y, hy⟩ := Option.isSome_iff_exists.mp hb
  simp only [diagLE, jsLtFrom, fromKeyLE, hx, hy, Option.getD_some]
  by_cases h : x ≤ y <;> simp [h] <;> omega

theorem fromKeyLE_trans (a b c : CmDiagnostic) :
    fromKeyLE a b → fromKeyLE b c → fromKeyLE a c := by
  simp only [fromKeyLE, decide_eq_true_eq]
  omega

theorem fromKeyLE_total (a b : CmDiagnostic) : fromKeyLE a b || fromKeyLE b a := by
  simp only [fromKeyLE]
  by_cases h : a.«from».getD 0 ≤ b.«from».getD 0 <;> simp [h] <;> omega

theorem displayed_eq_keySorted (doc : List (List Char)) (diags : List LspDiagnostic) :
    displayedDiagnostics doc diags
      = ((diags.map (mapDiagnostic doc)).filter
          (fun x => x.«from».isSome && x.«to».isSome)).mergeSort fromKeyLE := by
  unfold displayedDiagnostics
  have h := @List.map_mergeSort CmDiagnostic CmDiagnostic diagLE fromKeyLE id
    ((diags.map (mapDiagnostic doc)).filter (fun x => x.«from».isSome && x.«to».isSome))
    (by
      intro a hai b hbi
      rcases Bool.and_eq_true_iff.mp (List.mem_filter.mp hai).2 with ⟨ha, -⟩
      rcases Bool.and_eq_true_iff.mp (List.mem_filter.mp hbi).2 with ⟨hb, -⟩
      exact diagLE_agrees a b ha hb)
  simpa using h


/-- Concrete document for the C6 ordering scenario: one line of 60 characters. -/
def c6doc : List (List Char) := [List.replicate 60 'a']

/-- A one-character error diagnostic starting at character `n` of line 0. -/
def c6diag (n : Nat) : LspDiagnostic :=
  { range := { start := ⟨0, n⟩, «end» := ⟨0, n + 1⟩ },
    message := "m",
    severity := some .error }

/-- C6: for every diagnostics batch addressed to the tracked document, the
displayed list keeps exactly the entries whose start and end positions both
mapped (`from`/`to` defined), every displayed entry comes from an incoming
diagnostic via `mapDiagnostic` (which maps severities Error, Warning,
Information, Hint to error, warning, info, info), the list is a permutation of
the mapped-and-filtered entries sorted by ascending start offset, ties keep
arrival order (sorting the survivors with ties broken by their arrival index
yields the same list), and in particular start offsets [50, 10, 30] are
displayed in order [10, 30, 50]. -/
theorem c6_diagnostics_mapped_filtered_sorted (doc : List (List Char)) (u : String)
    (diags : List LspDiagnostic) :
    handleDiagnostics doc u u diags = some (displayedDiagnostics doc diags) ∧
    (∀ x ∈ displayedDiagnostics doc diags, x.«from».isSome ∧ x.«to».isSome) ∧
    (∀ x ∈ displayedDiagnostics doc diags, ∃ d ∈ diags, x = mapDiagnostic doc d) ∧
    (displayedDiagnostics doc diags).Perm
      ((diags.map (mapDiagnostic doc)).filter
        (fun x => x.«from».isSome && x.«to».isSome)) ∧
    (displayedDiagnostics doc diags).Pairwise
      (fun a b => a.«from».getD 0 ≤ b.«from».getD 0) ∧
    displayedDiagnostics doc diags
      = (List.mergeSort (((diags.map (mapDiagnostic doc)).filter
            (fun x => x.«from».isSome && x.«to».isSome)).enum)
          (List.enumLE diagLE)).map (·.2) ∧
    (severityMap .error = .error ∧ severityMap .warning = .warning ∧
      severityMap .information = .info ∧ severityMap .hint = .info) ∧
    (handleDiagnostics c6doc "file" "file" [c6diag 50, c6diag 10, c6diag 30]).map
        (List.map (fun x => x.«from»))
      = some [some 10, some 30, some 50] := by
  refine ⟨by simp [handleDiagnostics], ?_, ?_, List.mergeSort_perm _ _, ?_, ?_,
    ⟨rfl, rfl, rfl, rfl⟩, by
      simp [handleDiagnostics, displayedDiagnostics, c6doc, c6diag, mapDiagnostic,
        posToOffset, lineStart, docLength, List.mergeSort, List.splitInTwo,
        List.merge, diagLE, jsLtFrom]⟩
  · intro x hx
    have hx' := (List.mem_filter.mp (List.mem_mergeSort.mp hx)).2
    exact Bool.and_eq_true_iff.mp hx'
  · intro x hx
    have hx' := (List.mem_filter.mp (List.mem_mergeSort.mp hx)).1
    rcases List.mem_map.mp hx' with ⟨d, hd, hmap⟩
    exact ⟨d, hd, hmap.symm⟩
  · rw [displayed_eq_keySorted]
    have h := @List.sorted_mergeSort CmDiagnostic fromKeyLE fromKeyLE_trans
      fromKeyLE_total
      ((diags.map (mapDiagnostic doc)).filter
        (fun x => x.«from».isSome && x.«to».isSome))
    exact h.imp (fun hab => by simpa [fromKeyLE] using hab)
  · unfold displayedDiagnostics
    exact List.mergeSort_enum.symm

/-- Witness for C6, instantiating the quantified parts at the concrete scenario:
the displayed entry built from the diagnostic at offset 10 has both offsets
defined. -/
theorem c6_diagnostics_mapped_filtered_sorted_witness :
    handleDiagnostics c6doc "file" "file" [c6diag 50, c6diag 10, c6diag 30]
      = some (displayedDiagnostics c6doc [c6diag 50, c6diag 10, c6diag 30]) ∧
    ((mapDiagnostic c6doc (c6diag 10)).«from».isSome ∧
      (mapDiagnostic c6doc (c6diag 10)).«to».isSome) := by
  have h := c6_diagnostics_mapped_filtered_sorted c6doc "file"
    [c6diag 50, c6diag 10, c6diag 30]
  refine ⟨h.1, h.2.1 (mapDiagnostic c6doc (c6diag 10)) ?_⟩
  simp [displayedDiagnostics, c6doc, c6diag, mapDiagnostic, posToOffset, lineStart,
    docLength, List.mergeSort, List.splitInTwo, List.merge, diagLE, jsLtFrom]

/-! ### Completion ranking: `LspPlugin.requestCompletion` (lines 596-624) -/

/-- The fields of the completion options assembled on lines 567-594 that the
ranking uses, as character lists: `apply` is the literal insertion text
(`textEdit?.newText ?? label`), `filterText` and `sortText` default to the
label. -/
structure Completion where
  label : List Char
  apply : List Char
  sortText : List Char
  filterText : List Char
deriving DecidableEq

/-- JS `\w`: ASCII letters, digits and underscore. -/
def jsIsWordChar (c : Char) : Bool :=
  ('a' ≤ c && c ≤ 'z') || ('A' ≤ c && c ≤ 'Z') || ('0' ≤ c && c ≤ '9') || c = '_'

/-- JS `/^\w+$/.test s`. -/
def isWordToken (s : List Char) : Bool :=
  !s.isEmpty && s.all jsIsWordChar

/-- The token found by `context.matchBefore(match)`: its start offset `from`
and its text. -/
structure MatchedToken where
  «from» : Nat
  text : List Char
deriving DecidableEq

/-- JS `String.prototype.toLowerCase`, on the ASCII inputs considered here. -/
def jsToLower (s : List Char) : List Char :=
  s.map Char.toLower

/-- The comparator on lines 608-618 returns `-1`/`1` when exactly one side's
literal insertion text (`apply`) starts with the typed token (case-sensitive),
`0` otherwise; the stable sort keeps `a` before `b` iff the comparator is not
positive. -/
def completionLE (tokText : List Char) (a b : Completion) : Bool :=
  tokText.isPrefixOf a.apply || !(tokText.isPrefixOf b.apply)

/-- Lines 598-624 of `requestCompletion`, after the option list has been
assembled and `context.matchBefore` produced `token`: with no match the options
are returned unfiltered at the cursor; otherwise `pos` becomes `token.from`,
and only when the lowercased token text is purely word characters are the
options filtered (case-insensitive: lowercased `filterText` must start with the
lowercased token) and stably sorted by `completionLE`. -/
def rankCompletions (cursor : Nat) (token : Option MatchedToken)
    (options : List Completion) : Nat × List Completion :=
  match token with
  | none => (cursor, options)
  | some t =>
    let word := jsToLower t.text
    if isWordToken word then
      (t.«from»,
        (options.filter (fun o => word.isPrefixOf (jsToLower o.filterText))).mergeSort
          (completionLE t.text))
    else (t.«from», options)

/-- A completion option whose four text fields all equal `s` (as produced from a
bare item whose `label` is `s`: `apply`, `sortText` and `filterText` all default
to the label). -/
def mkOption (s : String) : Completion :=
  ⟨s.toList, s.toList, s.toList, s.toList⟩

/-- C7: with insertion texts ["foo", "foobar", "bar"] and typed token "fo", the
filtered and sorted result is ["foo", "foobar"] in that relative order; the
filter is a case-insensitive prefix match (["Foo", "fo"] both survive token
"fo"), and among survivors the ones whose literal insertion text starts with
the exact case-sensitive token sort first ("fo" before "Foo"), stable
otherwise. -/
theorem c7_completion_filter_and_order :
    (rankCompletions 5 (some ⟨3, "fo".toList⟩)
        [mkOption "foo", mkOption "foobar", mkOption "bar"]).2
      = [mkOption "foo", mkOption "foobar"] ∧
    (rankCompletions 5 (some ⟨3, "fo".toList⟩) [mkOption "Foo", mkOption "fo"]).2
      = [mkOption "fo", mkOption "Foo"] := by
  constructor
  · simp [rankCompletions, mkOption, List.mergeSort, List.splitInTwo, List.merge,
      jsToLower]
    decide
  · simp [rankCompletions, mkOption, List.mergeSort, List.splitInTwo, List.merge,
      jsToLower]
    decide

/-- C8 counterexample: the token "." was matched at offset 4 with the cursor at
5; filtering and sorting are skipped and the full option set is returned, but
the returned `from` is `token.from = 4`, not the cursor position 5 the claim
states. -/
theorem c8_from_is_token_start_counterexample :
    (rankCompletions 5 (some ⟨4, ".".toList⟩) [mkOption "a"]).1 ≠ 5 := by
  decide

/-- C8 amended: when the extracted token is not purely word characters,
filtering and sorting are skipped and the full option set is returned unranked
— at the matched token's start position `token.from` rather than at the cursor;
the cursor position is returned only when no token was matched at all. -/
theorem c8_nonword_token_skips_ranking (cursor : Nat) (t : MatchedToken)
    (options : List Completion) (h : isWordToken (jsToLower t.text) = false) :
    rankCompletions cursor (some t) options = (t.«from», options) ∧
    rankCompletions cursor none options = (cursor, options) := by
  constructor
  · simp [rankCompletions, h]
  · rfl

/-- Witness for C8's amended statement at the "." token. -/
theorem c8_nonword_token_skips_ranking_witness :
    rankCompletions 5 (some ⟨4, ".".toList⟩) [mkOption "a"] = (4, [mkOption "a"]) ∧
    rankCompletions 5 none [mkOption "a"] = (5, [mkOption "a"]) :=
  c8_nonword_token_skips_ranking 5 ⟨4, ".".toList⟩ [mkOption "a"] (by decide)

end Worker
